import Mathlib

/-!
Verification of the downloads dashboard (`streamlit_app.py`).

The embedding models the two aggregation functions `monthly_downloads` /
`weekly_downloads` (a SQL group-by query followed by a pandas
`groupby(...).pct_change().fillna(0)` delta column), the two chart builders
`plot_streamlit_downloads` / `plot_all_downloads` (as the data and derived
attributes they embed in the produced chart objects), and the data-flow of
`main` (as a function of the widget inputs to the rendered artifacts).

Calendar dates are abstracted to `Nat`; the `date_trunc(date, MONTH)` and
`date_trunc(date, WEEK)` bucketing functions are abstract parameters
`truncMonth, truncWeek : Nat → Nat`.  Pandas floats are modelled by `PFloat`
(a rational, an infinity, or NaN) so that the float semantics of
`pct_change` at a zero denominator is kept.
-/

namespace Downloads

/-- A pandas float as it occurs in the `delta` column: a finite rational,
one of the two infinities, or NaN. -/
inductive PFloat where
  | val (q : ℚ)
  | posInf
  | negInf
  | nan
deriving DecidableEq, Repr

/-- Pandas `fillna(0)` on one cell: NaN becomes `0`, everything else is kept. -/
def fillna0 : PFloat → PFloat
  | PFloat.nan => PFloat.val 0
  | x => x

/-- One step of pandas `pct_change` in float semantics: `(cur - prev) / prev`,
with `0/0 = NaN`, `c/0 = +∞` for `c > 0` and `c/0 = -∞` for `c < 0`. -/
def pctChange (prev cur : Int) : PFloat :=
  if prev = 0 then
    if cur = 0 then PFloat.nan
    else if 0 < cur then PFloat.posInf
    else PFloat.negInf
  else PFloat.val (((cur : ℚ) - (prev : ℚ)) / (prev : ℚ))

/-- The Vega expression `datum.delta < 0` (float `<`: false when the operand
is NaN). -/
def pfLtZero : PFloat → Bool
  | PFloat.val q => decide (q < 0)
  | PFloat.posInf => false
  | PFloat.negInf => true
  | PFloat.nan => false

/-- The statement `delta ≥ 0` about a float (false for NaN). -/
def pfNonneg : PFloat → Prop
  | PFloat.val q => 0 ≤ q
  | PFloat.posInf => True
  | PFloat.negInf => False
  | PFloat.nan => False

instance : DecidablePred pfNonneg
  | PFloat.val q => inferInstanceAs (Decidable (0 ≤ q))
  | PFloat.posInf => inferInstanceAs (Decidable True)
  | PFloat.negInf => inferInstanceAs (Decidable False)
  | PFloat.nan => inferInstanceAs (Decidable False)

/-- A raw row of the `streamlit.streamlit.pypi_downloads` fact table:
a calendar date (abstracted to `Nat`), a project name and a download count. -/
structure Fact where
  date : Nat
  project : String
  downloads : Int
deriving DecidableEq, Repr

/-- A row of the SQL query result: a truncated date bucket, a project name
and the summed downloads of the group. -/
structure Row where
  date : Nat
  project : String
  downloads : Int
deriving DecidableEq, Repr

/-- A row of the data frame after the `delta` column has been added. -/
structure DRow where
  date : Nat
  project : String
  downloads : Int
  delta : PFloat
deriving DecidableEq, Repr

/-- The projects excluded by the `project NOT IN (...)` clause: shiny. -/
def denylist : List String := ["shiny"]

/-- The WHERE clause: date at least start_date, and project not denylisted. -/
def keptFacts (startDate : Nat) (facts : List Fact) : List Fact :=
  facts.filter (fun f => decide (startDate ≤ f.date ∧ f.project ∉ denylist))

/-- The GROUP BY key `(date_trunc(date, …), project)`. -/
def keyOf (bucket : Nat → Nat) (f : Fact) : Nat × String := (bucket f.date, f.project)

/-- The ORDER BY 1, 2 ASC clause: lexicographic order, bucket first, then project name. -/
def keyLe (a b : Nat × String) : Prop :=
  a.1 < b.1 ∨ (a.1 = b.1 ∧ a.2 ≤ b.2)

instance : DecidableRel keyLe := fun a b => by
  unfold keyLe; exact inferInstance

instance : IsTotal (Nat × String) keyLe where
  total a b := by
    rcases Nat.lt_trichotomy a.1 b.1 with h | h | h
    · exact Or.inl (Or.inl h)
    · rcases le_total a.2 b.2 with h2 | h2
      · exact Or.inl (Or.inr ⟨h, h2⟩)
      · exact Or.inr (Or.inr ⟨h.symm, h2⟩)
    · exact Or.inr (Or.inl h)

instance : IsTrans (Nat × String) keyLe where
  trans a b c hab hbc := by
    rcases hab with h1 | ⟨h1, h1s⟩
    · rcases hbc with h2 | ⟨h2, _⟩
      · exact Or.inl (h1.trans h2)
      · exact Or.inl (h2 ▸ h1)
    · rcases hbc with h2 | ⟨h2, h2s⟩
      · exact Or.inl (h1 ▸ h2)
      · exact Or.inr ⟨h1.trans h2, h1s.trans h2s⟩

/-- The summed downloads, `SUM(downloads)`, over one group of the kept facts. -/
def groupSum (bucket : Nat → Nat) (kept : List Fact) (k : Nat × String) : Int :=
  ((kept.filter (fun f => keyOf bucket f = k)).map Fact.downloads).sum

/-- The SQL query shared by `monthly_downloads` and `weekly_downloads`:
filter by start date and denylist, group by (bucket, project) with summed
downloads, order ascending by bucket then project. -/
def sqlQuery (bucket : Nat → Nat) (startDate : Nat) (facts : List Fact) : List Row :=
  (List.insertionSort keyLe (((keptFacts startDate facts).map (keyOf bucket)).dedup)).map
    (fun k => ⟨k.1, k.2, groupSum bucket (keptFacts startDate facts) k⟩)

/-- Line 28, `df["delta"] = (df.groupby(["project"])["downloads"].pct_change()).fillna(0)`,
processed row by row: `prev` maps each project to the downloads value of its
latest earlier row (pandas `groupby` keeps the original row order inside each
group, and `pct_change` compares with the previous row of the same group). -/
def monthlyDeltaAux (prev : String → Option Int) : List Row → List DRow
  | [] => []
  | r :: rs =>
    ⟨r.date, r.project, r.downloads,
        fillna0 (match prev r.project with
          | none => PFloat.nan
          | some p => pctChange p r.downloads)⟩ ::
      monthlyDeltaAux (fun q => if q = r.project then some r.downloads else prev q) rs

/-- Line 49: the same delta post-processing, duplicated verbatim in
`weekly_downloads`. -/
def weeklyDeltaAux (prev : String → Option Int) : List Row → List DRow
  | [] => []
  | r :: rs =>
    ⟨r.date, r.project, r.downloads,
        fillna0 (match prev r.project with
          | none => PFloat.nan
          | some p => pctChange p r.downloads)⟩ ::
      weeklyDeltaAux (fun q => if q = r.project then some r.downloads else prev q) rs

/-- Lines 12-30, `monthly_downloads`: the SQL query with MONTH bucketing followed by the
delta column. -/
def monthly_downloads (truncMonth : Nat → Nat) (startDate : Nat)
    (facts : List Fact) : List DRow :=
  monthlyDeltaAux (fun _ => none) (sqlQuery truncMonth startDate facts)

/-- Lines 33-51, `weekly_downloads`: the SQL query with WEEK bucketing followed by the
delta column. -/
def weekly_downloads (truncWeek : Nat → Nat) (startDate : Nat)
    (facts : List Fact) : List DRow :=
  weeklyDeltaAux (fun _ => none) (sqlQuery truncWeek startDate facts)

/-- The delta column restricted to the series of one project: `prev` is the
downloads value of the previous bucket of this project, if any. -/
def deltaSeries (prev : Option Int) : List Row → List DRow
  | [] => []
  | r :: rs =>
    ⟨r.date, r.project, r.downloads,
        fillna0 (match prev with
          | none => PFloat.nan
          | some p => pctChange p r.downloads)⟩ ::
      deltaSeries (some r.downloads) rs

/-- One highlighted point of the single-series chart: the source record and
the color computed by `transform_calculate`. -/
structure SPoint where
  row : DRow
  color : String
deriving DecidableEq, Repr

/-- The chart object of `plot_streamlit_downloads`, reduced to the data it
embeds: each source record together with its computed highlight color. -/
structure SingleChart where
  points : List SPoint
deriving DecidableEq, Repr

/-- Lines 103-138: the single-series chart.  The color channel is computed
by a `transform_calculate` whose Vega expression yields the string red when
`datum.delta < 0` and the string green otherwise. -/
def plot_streamlit_downloads (source : List DRow) : SingleChart :=
  ⟨source.map (fun r => ⟨r, if pfLtZero r.delta then "red" else "green"⟩)⟩

/-- The chart object of `plot_all_downloads`, reduced to the data it embeds
and the user-toggled axis scale. -/
structure MultiChart where
  data : List DRow
  axisScale : String
deriving DecidableEq, Repr

/-- Lines 54-100: the multi-series chart; `logScale` is the state of the
`View logarithmic scale` checkbox. -/
def plot_all_downloads (logScale : Bool) (source : List DRow) : MultiChart :=
  ⟨source, if logScale then "log" else "linear"⟩

/-- Pandas `drop_duplicates`, keeping the first occurrence of each value:
`seen` is the set of values already emitted. -/
def dropDupAux (seen : List String) : List String → List String
  | [] => []
  | x :: xs => if seen.contains x then dropDupAux seen xs else x :: dropDupAux (x :: seen) xs

/-- Pandas `drop_duplicates`: keep the first occurrence of each value. -/
def dropDuplicates (l : List String) : List String :=
  dropDupAux [] l

/-- What one run of `main` renders: the options offered by the package
multi-select, the single-series chart, and the multi-series chart
(`none` when `st.stop()` ended the script before it was built). -/
structure RenderResult where
  packageNames : List String
  singleChart : SingleChart
  multiChart : Option MultiChart
deriving Repr

/-- Lines 141-211: the data flow of `main`, as a function of the widget
inputs (start date, `weekly`/`monthly` selector, package multi-select,
log-scale checkbox) and the fact table. -/
def main (truncMonth truncWeek : Nat → Nat) (startDate : Nat) (timeFrame : String)
    (selectPackages : List String) (logScale : Bool) (facts : List Fact) :
    RenderResult :=
  let df_monthly := monthly_downloads truncMonth startDate facts
  let df_weekly := weekly_downloads truncWeek startDate facts
  let streamlit_data_monthly := df_monthly.filter (fun r => r.project == "streamlit")
  let streamlit_data_weekly := df_weekly.filter (fun r => r.project == "streamlit")
  let package_names := dropDuplicates (df_monthly.map DRow.project)
  let selected_data_streamlit :=
    if timeFrame = "weekly" then streamlit_data_weekly else streamlit_data_monthly
  let selected_data_all :=
    if timeFrame = "weekly" then df_weekly else df_monthly
  let single := plot_streamlit_downloads selected_data_streamlit
  if selectPackages = [] then
    ⟨package_names, single, none⟩
  else
    let filtered_df := selected_data_all.filter (fun r => selectPackages.contains r.project)
    ⟨package_names, single, some (plot_all_downloads logScale filtered_df)⟩

/-- The GROUP BY / ORDER BY key of a query result row. -/
def Row.key (r : Row) : Nat × String := (r.date, r.project)

/-- The (bucket, project) key of a delta-annotated row. -/
def DRow.key (d : DRow) : Nat × String := (d.date, d.project)

/-- The rows of one project inside an aggregation result, in result order
(pandas `groupby` keeps the original row order inside each group). -/
def projectSeries (out : List DRow) (p : String) : List DRow :=
  out.filter (fun d => d.project == p)

/-- Lines 171-176: `selected_data_all`, the aggregation result of the
granularity picked by the `weekly`/`monthly` selector. -/
def selectedAll (truncMonth truncWeek : Nat → Nat) (startDate : Nat)
    (timeFrame : String) (facts : List Fact) : List DRow :=
  if timeFrame = "weekly" then weekly_downloads truncWeek startDate facts
  else monthly_downloads truncMonth startDate facts

/-- The delta recurrence the spec states for an aggregation output: inside
every project series, each row after the first whose predecessor has nonzero
downloads carries delta = downloads[t] / downloads[t-1] - 1. -/
def deltaRecurrence (out : List DRow) : Prop :=
  ∀ (p : String) (i : Nat)
    (hi : i < (projectSeries out p).length)
    (h : i + 1 < (projectSeries out p).length),
    ((projectSeries out p).get ⟨i, hi⟩).downloads ≠ 0 →
    ((projectSeries out p).get ⟨i + 1, h⟩).delta
      = PFloat.val ((((projectSeries out p).get ⟨i + 1, h⟩).downloads : ℚ)
          / (((projectSeries out p).get ⟨i, hi⟩).downloads : ℚ) - 1)

/-! ### Basic lemmas about the delta post-processing -/

theorem weeklyDeltaAux_eq (prev : String → Option Int) (rows : List Row) :
    weeklyDeltaAux prev rows = monthlyDeltaAux prev rows := by
  induction rows generalizing prev with
  | nil => rfl
  | cons r rs ih => simp only [weeklyDeltaAux, monthlyDeltaAux, ih]

theorem weekly_eq_monthly (bucket : Nat → Nat) (startDate : Nat) (facts : List Fact) :
    weekly_downloads bucket startDate facts = monthly_downloads bucket startDate facts := by
  unfold weekly_downloads monthly_downloads
  exact weeklyDeltaAux_eq _ _

theorem monthlyDeltaAux_map_key (prev : String → Option Int) (rows : List Row) :
    (monthlyDeltaAux prev rows).map DRow.key = rows.map Row.key := by
  induction rows generalizing prev with
  | nil => rfl
  | cons r rs ih => simp [monthlyDeltaAux, DRow.key, Row.key, ih]

theorem monthlyDeltaAux_map_project (prev : String → Option Int) (rows : List Row) :
    (monthlyDeltaAux prev rows).map DRow.project = rows.map Row.project := by
  induction rows generalizing prev with
  | nil => rfl
  | cons r rs ih => simp [monthlyDeltaAux, ih]

theorem monthlyDeltaAux_filter (p : String) (rows : List Row) :
    ∀ prev : String → Option Int,
      (monthlyDeltaAux prev rows).filter (fun d => d.project == p)
        = deltaSeries (prev p) (rows.filter (fun r => r.project == p)) := by
  induction rows with
  | nil => intro prev; rfl
  | cons r rs ih =>
    intro prev
    by_cases hp : r.project = p
    · subst hp
      simp [monthlyDeltaAux, List.filter_cons, ih, deltaSeries]
    · have hp2 : ¬(p = r.project) := fun h => hp h.symm
      have hbeq : (r.project == p) = false := beq_eq_false_iff_ne.mpr hp
      simp [monthlyDeltaAux, List.filter_cons, hbeq, ih, hp2]

theorem monthly_downloads_filter (bucket : Nat → Nat) (startDate : Nat)
    (facts : List Fact) (p : String) :
    projectSeries (monthly_downloads bucket startDate facts) p
      = deltaSeries none ((sqlQuery bucket startDate facts).filter (fun r => r.project == p)) := by
  unfold projectSeries monthly_downloads
  exact monthlyDeltaAux_filter p _ _

theorem length_deltaSeries (prev : Option Int) (l : List Row) :
    (deltaSeries prev l).length = l.length := by
  induction l generalizing prev with
  | nil => rfl
  | cons r rs ih => simp [deltaSeries, ih]

theorem deltaSeries_get_downloads :
    ∀ (l : List Row) (prev : Option Int) (j : Nat)
      (h2 : j < (deltaSeries prev l).length) (h : j < l.length),
      ((deltaSeries prev l).get ⟨j, h2⟩).downloads = (l.get ⟨j, h⟩).downloads := by
  intro l
  induction l with
  | nil => intro prev j h2 h; simp at h
  | cons r rs ih =>
    intro prev j h2 h
    cases j with
    | zero => rfl
    | succ j =>
      have h2t : j < (deltaSeries (some r.downloads) rs).length := by
        have := h2; simp [deltaSeries] at this; omega
      have ht : j < rs.length := by simp at h; omega
      simpa [deltaSeries, List.get_cons_succ] using ih (some r.downloads) j h2t ht

theorem deltaSeries_none_head? (l : List Row) (r : DRow)
    (h : (deltaSeries none l).head? = some r) : r.delta = PFloat.val 0 := by
  cases l with
  | nil => simp [deltaSeries] at h
  | cons a t =>
    simp only [deltaSeries, List.head?_cons, Option.some.injEq] at h
    rw [← h]
    rfl

theorem deltaSeries_get_delta_succ :
    ∀ (l : List Row) (prev : Option Int) (i : Nat)
      (h2 : i + 1 < (deltaSeries prev l).length)
      (hi : i < l.length) (h : i + 1 < l.length),
      ((deltaSeries prev l).get ⟨i + 1, h2⟩).delta
        = fillna0 (pctChange ((l.get ⟨i, hi⟩).downloads) ((l.get ⟨i + 1, h⟩).downloads)) := by
  intro l
  induction l with
  | nil => intro prev i h2 hi h; simp at hi
  | cons r rs ih =>
    intro prev i h2 hi h
    cases i with
    | zero =>
      cases rs with
      | nil => simp [deltaSeries] at h2
      | cons r2 t => rfl
    | succ i =>
      have h2t : i + 1 < (deltaSeries (some r.downloads) rs).length := by
        have := h2; simp [deltaSeries] at this; omega
      have hit : i < rs.length := by simp at hi; omega
      have ht : i + 1 < rs.length := by simp at h; omega
      simpa [deltaSeries, List.get_cons_succ] using
        ih (some r.downloads) i h2t hit ht

/-! ### Lemmas about the modelled SQL query -/

theorem mem_keptFacts {startDate : Nat} {facts : List Fact} {f : Fact}
    (h : f ∈ keptFacts startDate facts) :
    f ∈ facts ∧ startDate ≤ f.date ∧ f.project ≠ "shiny" := by
  unfold keptFacts at h
  rw [List.mem_filter] at h
  obtain ⟨hf, hcond⟩ := h
  have hc := of_decide_eq_true hcond
  refine ⟨hf, hc.1, ?_⟩
  intro hs
  exact hc.2 (by simp [denylist, hs])

theorem mem_sqlQuery {bucket : Nat → Nat} {startDate : Nat} {facts : List Fact} {r : Row}
    (h : r ∈ sqlQuery bucket startDate facts) :
    r.key ∈ (keptFacts startDate facts).map (keyOf bucket)
      ∧ r.downloads = groupSum bucket (keptFacts startDate facts) r.key := by
  unfold sqlQuery at h
  rw [List.mem_map] at h
  obtain ⟨k, hk, rfl⟩ := h
  have hk2 : k ∈ ((keptFacts startDate facts).map (keyOf bucket)).dedup :=
    ((List.perm_insertionSort keyLe _).mem_iff).mp hk
  rw [List.mem_dedup] at hk2
  exact ⟨hk2, rfl⟩

theorem sqlQuery_project_ne_shiny {bucket : Nat → Nat} {startDate : Nat}
    {facts : List Fact} {r : Row} (h : r ∈ sqlQuery bucket startDate facts) :
    r.project ≠ "shiny" := by
  obtain ⟨hkey, _⟩ := mem_sqlQuery h
  rw [List.mem_map] at hkey
  obtain ⟨f, hf, hkey⟩ := hkey
  have hp : f.project = r.project := congrArg Prod.snd hkey
  rw [← hp]
  exact (mem_keptFacts hf).2.2

theorem sqlQuery_map_key (bucket : Nat → Nat) (startDate : Nat) (facts : List Fact) :
    (sqlQuery bucket startDate facts).map Row.key
      = List.insertionSort keyLe (((keptFacts startDate facts).map (keyOf bucket)).dedup) := by
  unfold sqlQuery
  rw [List.map_map]
  have hid : (Row.key ∘ fun k : Nat × String =>
      (⟨k.1, k.2, groupSum bucket (keptFacts startDate facts) k⟩ : Row)) = id := by
    funext k
    rfl
  rw [hid, List.map_id]

theorem sqlQuery_sorted (bucket : Nat → Nat) (startDate : Nat) (facts : List Fact) :
    List.Sorted keyLe ((sqlQuery bucket startDate facts).map Row.key) := by
  rw [sqlQuery_map_key]
  exact List.sorted_insertionSort keyLe _

theorem sqlQuery_nodup_key (bucket : Nat → Nat) (startDate : Nat) (facts : List Fact) :
    ((sqlQuery bucket startDate facts).map Row.key).Nodup := by
  rw [sqlQuery_map_key]
  exact ((List.perm_insertionSort keyLe _).symm.nodup (List.nodup_dedup _))

theorem sqlQuery_downloads_pos {bucket : Nat → Nat} {startDate : Nat} {facts : List Fact}
    (hpos : ∀ f ∈ facts, 0 < f.downloads) :
    ∀ r ∈ sqlQuery bucket startDate facts, 0 < r.downloads := by
  intro r hr
  obtain ⟨hkey, hdl⟩ := mem_sqlQuery hr
  rw [List.mem_map] at hkey
  obtain ⟨f0, hf0, hk0⟩ := hkey
  rw [hdl]
  unfold groupSum
  apply List.sum_pos
  · intro x hx
    rw [List.mem_map] at hx
    obtain ⟨g, hg, rfl⟩ := hx
    exact hpos g (mem_keptFacts (List.mem_filter.mp hg).1).1
  · apply List.ne_nil_of_mem (a := f0.downloads)
    rw [List.mem_map]
    refine ⟨f0, List.mem_filter.mpr ⟨hf0, ?_⟩, rfl⟩
    exact decide_eq_true hk0

/-! ### Lemmas about dropDuplicates and deltaSeries values -/

theorem mem_dropDupAux : ∀ (l seen : List String) (x : String),
    x ∈ dropDupAux seen l → x ∈ l := by
  intro l
  induction l with
  | nil => intro seen x h; simp [dropDupAux] at h
  | cons y ys ih =>
    intro seen x h
    rw [dropDupAux] at h
    by_cases hseen : seen.contains y
    · rw [if_pos hseen] at h
      exact List.mem_cons_of_mem _ (ih seen x h)
    · rw [if_neg hseen] at h
      rcases List.mem_cons.mp h with rfl | h2
      · exact List.mem_cons_self _ _
      · exact List.mem_cons_of_mem _ (ih (y :: seen) x h2)

theorem mem_dropDuplicates (l : List String) (x : String)
    (h : x ∈ dropDuplicates l) : x ∈ l :=
  mem_dropDupAux l [] x h

theorem deltaSeries_delta_in_range :
    ∀ (l : List Row) (prev : Option Int),
      (∀ d, prev = some d → 0 < d) → (∀ r ∈ l, 0 < r.downloads) →
      ∀ x ∈ deltaSeries prev l, ∃ q : ℚ, x.delta = PFloat.val q ∧ -1 < q := by
  intro l
  induction l with
  | nil => intro prev _ _ x hx; simp [deltaSeries] at hx
  | cons r rs ih =>
    intro prev hprev hpos x hx
    have htail : ∀ x ∈ deltaSeries (some r.downloads) rs, ∃ q : ℚ, x.delta = PFloat.val q ∧ -1 < q :=
      ih (some r.downloads) (fun d hd => by cases hd; exact hpos r (List.mem_cons_self _ _))
        (fun g hg => hpos g (List.mem_cons_of_mem _ hg))
    cases prev with
    | none =>
      rw [show deltaSeries none (r :: rs)
          = ⟨r.date, r.project, r.downloads, fillna0 PFloat.nan⟩
              :: deltaSeries (some r.downloads) rs from rfl, List.mem_cons] at hx
      rcases hx with rfl | hx
      · exact ⟨0, rfl, by norm_num⟩
      · exact htail x hx
    | some d =>
      rw [show deltaSeries (some d) (r :: rs)
          = ⟨r.date, r.project, r.downloads, fillna0 (pctChange d r.downloads)⟩
              :: deltaSeries (some r.downloads) rs from rfl, List.mem_cons] at hx
      rcases hx with rfl | hx
      · have hd : 0 < d := hprev d rfl
        have hcur : 0 < r.downloads := hpos r (List.mem_cons_self _ _)
        refine ⟨((r.downloads : ℚ) - (d : ℚ)) / (d : ℚ), ?_, ?_⟩
        · show fillna0 (pctChange d r.downloads) = _
          rw [pctChange, if_neg (by omega)]
          rfl
        · have hdq : (0 : ℚ) < (d : ℚ) := by exact_mod_cast hd
          have hcq : (0 : ℚ) < (r.downloads : ℚ) := by exact_mod_cast hcur
          rw [lt_div_iff₀ hdq]
          linarith
      · exact htail x hx

theorem deltaSeries_recurrence (rows : List Row) (i : Nat)
    (hi : i < (deltaSeries none rows).length)
    (h : i + 1 < (deltaSeries none rows).length)
    (hnz : ((deltaSeries none rows).get ⟨i, hi⟩).downloads ≠ 0) :
    ((deltaSeries none rows).get ⟨i + 1, h⟩).delta
      = PFloat.val ((((deltaSeries none rows).get ⟨i + 1, h⟩).downloads : ℚ)
          / (((deltaSeries none rows).get ⟨i, hi⟩).downloads : ℚ) - 1) := by
  have hlen := length_deltaSeries (none : Option Int) rows
  have hi2 : i < rows.length := by rw [hlen] at hi; exact hi
  have h2 : i + 1 < rows.length := by rw [hlen] at h; exact h
  have hd1 := deltaSeries_get_downloads rows none i hi hi2
  have hd2 := deltaSeries_get_downloads rows none (i + 1) h h2
  rw [hd1] at hnz
  rw [deltaSeries_get_delta_succ rows none i h hi2 h2, hd1, hd2]
  rw [pctChange, if_neg hnz]
  have hne : ((rows.get ⟨i, hi2⟩).downloads : ℚ) ≠ 0 := Int.cast_ne_zero.mpr hnz
  show PFloat.val _ = PFloat.val _
  rw [PFloat.val.injEq, sub_div, div_self hne]

theorem monthly_deltaRecurrence (bucket : Nat → Nat) (startDate : Nat)
    (facts : List Fact) : deltaRecurrence (monthly_downloads bucket startDate facts) := by
  intro p i hi h hnz
  have hEq := monthly_downloads_filter bucket startDate facts p
  have g1 := List.get_of_eq hEq ⟨i, hi⟩
  have g2 := List.get_of_eq hEq ⟨i + 1, h⟩
  rw [g1] at hnz
  rw [g1, g2]
  exact deltaSeries_recurrence _ i _ _ hnz

/-! ### Claim theorems -/

/-- C2: for every non-empty project series in the output of either
aggregation, the delta of the first bucket of that project equals `0`
(a genuine zero value, not a missing one). -/
theorem first_bucket_delta_zero (bucket : Nat → Nat) (startDate : Nat)
    (facts : List Fact) (p : String) (r : DRow) :
    ((projectSeries (monthly_downloads bucket startDate facts) p).head? = some r
        → r.delta = PFloat.val 0)
      ∧ ((projectSeries (weekly_downloads bucket startDate facts) p).head? = some r
        → r.delta = PFloat.val 0) := by
  constructor
  · intro h
    rw [monthly_downloads_filter] at h
    exact deltaSeries_none_head? _ _ h
  · intro h
    rw [show projectSeries (weekly_downloads bucket startDate facts) p
          = projectSeries (monthly_downloads bucket startDate facts) p
        from by rw [weekly_eq_monthly], monthly_downloads_filter] at h
    exact deltaSeries_none_head? _ _ h

/-- C2 witness: at a one-row fact table the single project series starts
with delta `0`. -/
theorem first_bucket_delta_zero_witness :
    (projectSeries (monthly_downloads id 0 [⟨0, "A", 100⟩]) "A").head?
        = some ⟨0, "A", 100, PFloat.val 0⟩
      ∧ (⟨0, "A", 100, PFloat.val 0⟩ : DRow).delta = PFloat.val 0 := by
  refine ⟨by decide, ?_⟩
  exact (first_bucket_delta_zero id 0 [⟨0, "A", 100⟩] "A" ⟨0, "A", 100, PFloat.val 0⟩).1
    (by decide)

/-- C3: no row of either aggregation output carries the denylisted project
name shiny, for any start date and any bucketing. -/
theorem no_denylisted_project (bucket : Nat → Nat) (startDate : Nat)
    (facts : List Fact) (r : DRow) :
    (r ∈ monthly_downloads bucket startDate facts → r.project ≠ "shiny")
      ∧ (r ∈ weekly_downloads bucket startDate facts → r.project ≠ "shiny") := by
  have hm : r ∈ monthly_downloads bucket startDate facts → r.project ≠ "shiny" := by
    intro hr
    have hproj : r.project ∈ (sqlQuery bucket startDate facts).map Row.project := by
      rw [← monthlyDeltaAux_map_project (fun _ => none)]
      exact List.mem_map_of_mem DRow.project hr
    rw [List.mem_map] at hproj
    obtain ⟨r0, hr0, hp⟩ := hproj
    rw [← hp]
    exact sqlQuery_project_ne_shiny hr0
  refine ⟨hm, ?_⟩
  rw [weekly_eq_monthly]
  exact hm

/-- C3 witness: a shiny fact row is dropped; the remaining row is not
shiny. -/
theorem no_denylisted_project_witness :
    (⟨0, "A", 3, PFloat.val 0⟩ : DRow) ∈ monthly_downloads id 0 [⟨0, "shiny", 9⟩, ⟨0, "A", 3⟩]
      ∧ (⟨0, "A", 3, PFloat.val 0⟩ : DRow).project ≠ "shiny" := by
  refine ⟨by decide, ?_⟩
  exact (no_denylisted_project id 0 [⟨0, "shiny", 9⟩, ⟨0, "A", 3⟩] ⟨0, "A", 3, PFloat.val 0⟩).1
    (by decide)

/-- C4: for every fixed input, the output rows of either aggregation are
sorted ascending by (bucket, project), and the (bucket, project) pairs are
unique within the result. -/
theorem output_sorted_and_unique (bucket : Nat → Nat) (startDate : Nat)
    (facts : List Fact) :
    (List.Sorted keyLe ((monthly_downloads bucket startDate facts).map DRow.key)
        ∧ ((monthly_downloads bucket startDate facts).map DRow.key).Nodup)
      ∧ (List.Sorted keyLe ((weekly_downloads bucket startDate facts).map DRow.key)
        ∧ ((weekly_downloads bucket startDate facts).map DRow.key).Nodup) := by
  have hm : List.Sorted keyLe ((monthly_downloads bucket startDate facts).map DRow.key)
      ∧ ((monthly_downloads bucket startDate facts).map DRow.key).Nodup := by
    unfold monthly_downloads
    rw [monthlyDeltaAux_map_key]
    exact ⟨sqlQuery_sorted bucket startDate facts, sqlQuery_nodup_key bucket startDate facts⟩
  refine ⟨hm, ?_⟩
  rw [weekly_eq_monthly]
  exact hm

/-- C8: the monthly and the weekly aggregation apply the identical delta
post-processing, and on the same underlying query result (same bucketing
function, start date and facts) they return equal outputs; they differ only
in the time-bucket granularity of the query. -/
theorem monthly_weekly_same_postprocessing :
    (∀ (prev : String → Option Int) (rows : List Row),
        weeklyDeltaAux prev rows = monthlyDeltaAux prev rows)
      ∧ (∀ (bucket : Nat → Nat) (startDate : Nat) (facts : List Fact),
        monthly_downloads bucket startDate facts = weekly_downloads bucket startDate facts) := by
  constructor
  · exact weeklyDeltaAux_eq
  · intro bucket startDate facts
    exact (weekly_eq_monthly bucket startDate facts).symm

/-- C1: in both aggregation outputs, inside every project series each row
after the first satisfies delta = downloads[t] / downloads[t-1] - 1
(whenever the preceding downloads value is nonzero, so that the quotient is
a finite number); in particular the input rows (bucket 0, A, 100) and
(bucket 1, A, 150) yield the delta sequence [0, 1/2]. -/
theorem delta_is_pct_change :
    (∀ (bucket : Nat → Nat) (startDate : Nat) (facts : List Fact),
        deltaRecurrence (monthly_downloads bucket startDate facts))
      ∧ (∀ (bucket : Nat → Nat) (startDate : Nat) (facts : List Fact),
        deltaRecurrence (weekly_downloads bucket startDate facts))
      ∧ (monthly_downloads id 0 [⟨0, "A", 100⟩, ⟨1, "A", 150⟩]).map DRow.delta
          = [PFloat.val 0, PFloat.val (1 / 2)] := by
  refine ⟨monthly_deltaRecurrence, ?_, ?_⟩
  · intro bucket startDate facts
    rw [weekly_eq_monthly]
    exact monthly_deltaRecurrence bucket startDate facts
  · have h0 : (monthly_downloads id 0 [⟨0, "A", 100⟩, ⟨1, "A", 150⟩]).map DRow.delta
        = [fillna0 PFloat.nan, fillna0 (pctChange 100 150)] := rfl
    have h1 : pctChange 100 150 = PFloat.val (((150 : ℚ) - 100) / 100) := by
      rw [pctChange, if_neg (by norm_num)]
      norm_num
    rw [h0, h1]
    simp only [fillna0, List.cons.injEq, PFloat.val.injEq]
    norm_num

/-- C1 witness: the delta recurrence instantiated on the two-row scenario,
at the second bucket of project A. -/
theorem delta_is_pct_change_witness :
    ((projectSeries (monthly_downloads id 0 [⟨0, "A", 100⟩, ⟨1, "A", 150⟩]) "A").get
        ⟨0, by decide⟩).downloads ≠ 0
      ∧ ((projectSeries (monthly_downloads id 0 [⟨0, "A", 100⟩, ⟨1, "A", 150⟩]) "A").get
          ⟨1, by decide⟩).delta
        = PFloat.val ((((projectSeries (monthly_downloads id 0
              [⟨0, "A", 100⟩, ⟨1, "A", 150⟩]) "A").get ⟨1, by decide⟩).downloads : ℚ)
            / (((projectSeries (monthly_downloads id 0
              [⟨0, "A", 100⟩, ⟨1, "A", 150⟩]) "A").get ⟨0, by decide⟩).downloads : ℚ) - 1) := by
  refine ⟨by decide, ?_⟩
  exact delta_is_pct_change.1 id 0 [⟨0, "A", 100⟩, ⟨1, "A", 150⟩] "A" 0
    (by decide) (by decide) (by decide)

/-- C5 counterexample: with merely non-negative download counts the claimed
range fails: the fact table (0, A, 0), (1, A, 100) is non-negative, yet the
second output row has delta = +∞ (pandas divides by the previous value 0),
which is neither a finite value in (-1, +∞) nor 0. -/
theorem delta_range_counterexample :
    (∀ f ∈ [(⟨0, "A", 0⟩ : Fact), ⟨1, "A", 100⟩], 0 ≤ f.downloads)
      ∧ ¬ (∀ r ∈ monthly_downloads id 0 [⟨0, "A", 0⟩, ⟨1, "A", 100⟩],
        ∃ q : ℚ, r.delta = PFloat.val q ∧ (-1 < q ∨ q = 0)) := by
  refine ⟨by decide, ?_⟩
  intro hAll
  have hmem : (⟨1, "A", 100, PFloat.posInf⟩ : DRow)
      ∈ monthly_downloads id 0 [⟨0, "A", 0⟩, ⟨1, "A", 100⟩] := by decide
  obtain ⟨q, hq, _⟩ := hAll _ hmem
  exact PFloat.noConfusion hq

/-- C5 (amended): if the downloads column of the fact table holds positive
integer counts, every delta of both aggregation outputs is a finite value
in the open range (-1, +∞); the first bucket's 0 lies in that range. -/
theorem delta_range (bucket : Nat → Nat) (startDate : Nat) (facts : List Fact)
    (hpos : ∀ f ∈ facts, 0 < f.downloads) :
    (∀ r ∈ monthly_downloads bucket startDate facts,
        ∃ q : ℚ, r.delta = PFloat.val q ∧ -1 < q)
      ∧ (∀ r ∈ weekly_downloads bucket startDate facts,
        ∃ q : ℚ, r.delta = PFloat.val q ∧ -1 < q) := by
  have hm : ∀ r ∈ monthly_downloads bucket startDate facts,
      ∃ q : ℚ, r.delta = PFloat.val q ∧ -1 < q := by
    intro r hr
    have hr2 : r ∈ projectSeries (monthly_downloads bucket startDate facts) r.project :=
      List.mem_filter.mpr ⟨hr, by simp⟩
    rw [monthly_downloads_filter] at hr2
    refine deltaSeries_delta_in_range _ none (fun d hd => by cases hd) ?_ r hr2
    intro g hg
    exact sqlQuery_downloads_pos hpos g (List.mem_of_mem_filter hg)
  refine ⟨hm, ?_⟩
  rw [weekly_eq_monthly]
  exact hm

/-- C5 witness: the amended range statement on a concrete positive fact
table. -/
theorem delta_range_witness :
    (∀ f ∈ [(⟨0, "A", 100⟩ : Fact), ⟨1, "A", 150⟩], 0 < f.downloads)
      ∧ (∀ r ∈ monthly_downloads id 0 [⟨0, "A", 100⟩, ⟨1, "A", 150⟩],
        ∃ q : ℚ, r.delta = PFloat.val q ∧ -1 < q) := by
  refine ⟨by decide, ?_⟩
  exact (delta_range id 0 [⟨0, "A", 100⟩, ⟨1, "A", 150⟩] (by decide)).1

/-- C6: in the chart of the single-series builder, a highlighted point is
green exactly when its delta is ≥ 0 (for any non-NaN delta; every delta the
program produces is non-NaN after fillna), and red otherwise; a single
record with delta = 0 renders one green point. -/
theorem highlight_color (source : List DRow) (pt : SPoint) :
    (pt ∈ (plot_streamlit_downloads source).points → pt.row.delta ≠ PFloat.nan →
        (pt.color = "green" ↔ pfNonneg pt.row.delta))
      ∧ (plot_streamlit_downloads [⟨0, "streamlit", 5, PFloat.val 0⟩]).points
          = [⟨⟨0, "streamlit", 5, PFloat.val 0⟩, "green"⟩] := by
  have hrg : ("red" : String) ≠ "green" := by decide
  constructor
  · intro hmem hnan
    unfold plot_streamlit_downloads at hmem
    rw [List.mem_map] at hmem
    obtain ⟨r, hr, rfl⟩ := hmem
    show (if pfLtZero r.delta then "red" else "green") = "green" ↔ pfNonneg r.delta
    cases hd : r.delta with
    | val q =>
      by_cases hq : q < 0
      · simp [pfLtZero, hq, pfNonneg, hrg, not_le.mpr hq]
      · simp [pfLtZero, hq, pfNonneg, le_of_not_lt hq]
    | posInf => simp [pfLtZero, pfNonneg]
    | negInf => simp [pfLtZero, pfNonneg, hrg]
    | nan => exact absurd hd hnan
  · decide

/-- C6 witness: a single record with delta = 0 yields a green point whose
delta is ≥ 0. -/
theorem highlight_color_witness :
    (⟨⟨0, "streamlit", 5, PFloat.val 0⟩, "green"⟩ : SPoint)
        ∈ (plot_streamlit_downloads [⟨0, "streamlit", 5, PFloat.val 0⟩]).points
      ∧ ((⟨⟨0, "streamlit", 5, PFloat.val 0⟩, "green"⟩ : SPoint).color = "green"
        ↔ pfNonneg (⟨⟨0, "streamlit", 5, PFloat.val 0⟩, "green"⟩ : SPoint).row.delta) := by
  refine ⟨by decide, ?_⟩
  exact (highlight_color [⟨0, "streamlit", 5, PFloat.val 0⟩]
      ⟨⟨0, "streamlit", 5, PFloat.val 0⟩, "green"⟩).1 (by decide) (by decide)

/-- C7: the multi-series section is rendered exactly for a non-empty
package selection: with an empty selection `main` stops (no multi-series
chart is built), and with a non-empty selection the chart is built from the
selected-granularity rows of the chosen packages. -/
theorem empty_selection_halts (truncMonth truncWeek : Nat → Nat) (startDate : Nat)
    (timeFrame : String) (selectPackages : List String) (logScale : Bool)
    (facts : List Fact) :
    ((main truncMonth truncWeek startDate timeFrame selectPackages logScale facts).multiChart
          = none ↔ selectPackages = [])
      ∧ (selectPackages ≠ [] →
        (main truncMonth truncWeek startDate timeFrame selectPackages logScale facts).multiChart
          = some (plot_all_downloads logScale
            ((selectedAll truncMonth truncWeek startDate timeFrame facts).filter
              (fun r => selectPackages.contains r.project)))) := by
  by_cases h : selectPackages = [] <;>
    simp [main, h, selectedAll]

/-- C7 witness: a non-empty selection builds the multi-series chart. -/
theorem empty_selection_halts_witness :
    (["A"] : List String) ≠ []
      ∧ (main id id 0 "monthly" ["A"] false [⟨0, "A", 1⟩]).multiChart
        = some (plot_all_downloads false
          ((selectedAll id id 0 "monthly" [⟨0, "A", 1⟩]).filter
            (fun r => (["A"] : List String).contains r.project))) := by
  refine ⟨by decide, ?_⟩
  exact (empty_selection_halts id id 0 "monthly" ["A"] false [⟨0, "A", 1⟩]).2 (by decide)

/-- C9: the data handed to the single-series chart builder is the
selected-granularity aggregation output filtered to the rows whose project
is streamlit, so every record in the built chart carries the project name
streamlit. -/
theorem single_chart_source (truncMonth truncWeek : Nat → Nat) (startDate : Nat)
    (timeFrame : String) (selectPackages : List String) (logScale : Bool)
    (facts : List Fact) (pt : SPoint) :
    ((main truncMonth truncWeek startDate timeFrame selectPackages logScale facts).singleChart
        = plot_streamlit_downloads
          ((selectedAll truncMonth truncWeek startDate timeFrame facts).filter
            (fun r => r.project == "streamlit")))
      ∧ (pt ∈ (main truncMonth truncWeek startDate timeFrame selectPackages
            logScale facts).singleChart.points
        → pt.row.project = "streamlit") := by
  have h1 : (main truncMonth truncWeek startDate timeFrame selectPackages
        logScale facts).singleChart
      = plot_streamlit_downloads
        ((selectedAll truncMonth truncWeek startDate timeFrame facts).filter
          (fun r => r.project == "streamlit")) := by
    by_cases h : timeFrame = "weekly" <;> by_cases h2 : selectPackages = [] <;>
      simp [main, selectedAll, h, h2]
  refine ⟨h1, ?_⟩
  intro hp
  rw [h1] at hp
  unfold plot_streamlit_downloads at hp
  rw [List.mem_map] at hp
  obtain ⟨r, hr, rfl⟩ := hp
  exact eq_of_beq (List.mem_filter.mp hr).2

/-- C9 witness: on a one-row streamlit fact table the built chart has a
point, and its project is streamlit. -/
theorem single_chart_source_witness :
    (⟨⟨0, "streamlit", 5, PFloat.val 0⟩, "green"⟩ : SPoint)
        ∈ (main id id 0 "monthly" [] false [⟨0, "streamlit", 5⟩]).singleChart.points
      ∧ (⟨⟨0, "streamlit", 5, PFloat.val 0⟩, "green"⟩ : SPoint).row.project = "streamlit" := by
  refine ⟨by decide, ?_⟩
  exact (single_chart_source id id 0 "monthly" [] false [⟨0, "streamlit", 5⟩]
      ⟨⟨0, "streamlit", 5, PFloat.val 0⟩, "green"⟩).2 (by decide)

/-- C10: the options of the package multi-select always come from the
monthly aggregation (whatever granularity is displayed), every offered name
occurs in the monthly output, and for a non-empty selection the rendered
multi-series data is exactly the selected-granularity rows whose project is
among the selected packages. -/
theorem multiselect_options (truncMonth truncWeek : Nat → Nat) (startDate : Nat)
    (timeFrame : String) (selectPackages : List String) (logScale : Bool)
    (facts : List Fact) (p : String) :
    ((main truncMonth truncWeek startDate timeFrame selectPackages logScale facts).packageNames
        = dropDuplicates ((monthly_downloads truncMonth startDate facts).map DRow.project))
      ∧ (p ∈ (main truncMonth truncWeek startDate timeFrame selectPackages
            logScale facts).packageNames
        → p ∈ (monthly_downloads truncMonth startDate facts).map DRow.project)
      ∧ (selectPackages ≠ [] → ∃ c : MultiChart,
        (main truncMonth truncWeek startDate timeFrame selectPackages logScale facts).multiChart
            = some c
          ∧ c.data = (selectedAll truncMonth truncWeek startDate timeFrame facts).filter
              (fun r => selectPackages.contains r.project)) := by
  have h1 : (main truncMonth truncWeek startDate timeFrame selectPackages
        logScale facts).packageNames
      = dropDuplicates ((monthly_downloads truncMonth startDate facts).map DRow.project) := by
    by_cases h : selectPackages = [] <;> simp [main, h]
  refine ⟨h1, ?_, ?_⟩
  · intro hp
    rw [h1] at hp
    exact mem_dropDuplicates _ _ hp
  · intro hne
    refine ⟨plot_all_downloads logScale
      ((selectedAll truncMonth truncWeek startDate timeFrame facts).filter
        (fun r => selectPackages.contains r.project)), ?_, rfl⟩
    simp [main, hne, selectedAll]

/-- C10 witness: on a one-project fact table, project A is offered, occurs
in the monthly output, and the selection [A] renders exactly the A rows. -/
theorem multiselect_options_witness :
    "A" ∈ (main id id 0 "weekly" ["A"] false [⟨0, "A", 1⟩]).packageNames
      ∧ "A" ∈ (monthly_downloads id 0 [⟨0, "A", 1⟩]).map DRow.project
      ∧ (["A"] : List String) ≠ []
      ∧ ∃ c : MultiChart,
        (main id id 0 "weekly" ["A"] false [⟨0, "A", 1⟩]).multiChart = some c
          ∧ c.data = (selectedAll id id 0 "weekly" [⟨0, "A", 1⟩]).filter
              (fun r => (["A"] : List String).contains r.project) := by
  refine ⟨by decide, ?_, by decide, ?_⟩
  · exact (multiselect_options id id 0 "weekly" ["A"] false [⟨0, "A", 1⟩] "A").2.1 (by decide)
  · exact (multiselect_options id id 0 "weekly" ["A"] false [⟨0, "A", 1⟩] "A").2.2 (by decide)

end Downloads
